import Mathlib

/-!
Verification of the Retrieval-Fusion and Source-Selection Engine
(CHATBOT_SITSONE).  Shallow embedding of the Python sources:

* `app/retrieval/retriever.py`  — `Retriever.retrieve`, `_to_item`,
  `_expand_articles_same_block`, `_sort_article_chunks`, `_article_key`
* `app/policy/decider.py`       — `PolicyDecider.decide`, `_caution_if_stale`
* `app/utils/__init__.py`       — `safe_str`, `parse_iso`, `is_stale`
* `app/context/__init__.py`     — `ContextBuilder.build_faqs`
* `app/query_rewriter.py`       — `QueryRewriter.rewrite` (JSON post-processing)
* `app/service/chatbot.py`      — effective-question selection
* `app/config.py`               — `RAGConfig` defaults

Python floats are modelled as rationals (the policy thresholds and the
scores are only compared, never rounded), machine-level float rounding is
outside the model.  Fallible Python code (expressions that can raise) is
modelled with `Except PyError`.
-/

/-- The two exception kinds the embedded code can raise:
`float("garbage")` raises `ValueError`; subtracting an offset-naive
`datetime` from an offset-aware one raises `TypeError`. -/
inductive PyError where
  | valueError : PyError
  | typeError : PyError
deriving DecidableEq, Repr

/-- A scalar found under the `"score"` key of a raw index match
(`None` is represented by the surrounding `Option`). -/
inductive ScoreVal where
  | num : ℚ → ScoreVal
  | str : String → ScoreVal
deriving DecidableEq, Repr

/-- The metadata mapping of one match, restricted to the string-valued keys
the engine actually reads (an absent key is `none`); mirrors the open
`Dict[str, Any]` of `app/retrieval/models.py`. -/
structure Meta where
  article_id : Option String := none
  block_id : Option String := none
  chunk_index : Option String := none
  chunk_role : Option String := none
  updatedAt : Option String := none
  question : Option String := none
  q : Option String := none
  answer : Option String := none
  text : Option String := none
  titulo : Option String := none
  block_title : Option String := none
  block_definition : Option String := none
deriving DecidableEq, Repr

/-- One raw match as returned by the index-query collaborator
(`PineconeGateway.query` output / `_to_item` input): a dict with keys
`score` and `metadata`.  `metadata := none` models `raw.get("metadata")`
returning `None` (the code substitutes `{}`). -/
structure RawDict where
  score : Option ScoreVal := none
  metadata : Option Meta := none
deriving DecidableEq, Repr

/-- Structure `RetrievedItem` of `app/retrieval/models.py`. -/
structure RetrievedItem where
  source : String
  score : ℚ
  text : String
  meta : Meta
deriving DecidableEq, Repr

/-- Structure `Decision` of `app/policy/decider.py`. -/
structure Decision where
  action : String
  reason : String
  source_kind : String
  caution_note : Option String := none
deriving DecidableEq, Repr

/-- The fields of `RAGConfig` (`app/config.py`) that the embedded code
reads.  Note that `decider.py` reads `faq_over_article_margin` and
`retriever.py` reads `top_k_articles_within_article`, neither of which
exists on `RAGConfig`, so those two `getattr` calls always take their
literal defaults (`0.05` and `60`); they are embedded as literals. -/
structure RAGConfig where
  namespace_faqs : String
  namespace_articles : String
  top_k_faqs : ℕ
  top_k_articles_candidates : ℕ
  top_k_articles_final : ℕ
  top_k_articles_block_context : ℕ
  max_context_chars : ℕ
  stale_days_warn : ℤ
  top_k_faq_candidates : ℕ
  top_k_faq_final : ℕ
  top_k_articles_within_block : ℕ
  article_over_faq_margin : ℚ
deriving DecidableEq, Repr

/-- Defaults of `RAGConfig.from_env` with no environment variables set. -/
def cfgDefault : RAGConfig where
  namespace_faqs := "wiki_faqs"
  namespace_articles := "wiki_articulos"
  top_k_faqs := 5
  top_k_articles_candidates := 30
  top_k_articles_final := 8
  top_k_articles_block_context := 40
  max_context_chars := 12000
  stale_days_warn := 540
  top_k_faq_candidates := 25
  top_k_faq_final := 5
  top_k_articles_within_block := 40
  article_over_faq_margin := 0.05

/-- Embeds `safe_str` of `app/utils/__init__.py` on an optional string value:
`"" if x is None else str(x)`. -/
def safeStr (x : Option String) : String := x.getD ""

/-- Python `str.strip()` (drops surrounding whitespace); implemented on
the character list so that it reduces in the kernel. -/
def pyStrip (s : String) : String :=
  String.mk (((s.toList.dropWhile Char.isWhitespace).reverse.dropWhile
    Char.isWhitespace).reverse)

/-- Python `a or b` on two optional strings (`None` and `""` are falsy). -/
def pyOr (a b : Option String) : Option String :=
  match a with
  | some s => if s = "" then b else some s
  | none => b

/-- Value of a decimal digit character. -/
def digitVal (c : Char) : ℕ := c.toNat - 48

/-- Natural value of a digit run (most significant first). -/
def digitsNat (cs : List Char) : ℕ :=
  cs.foldl (fun acc c => 10 * acc + digitVal c) 0

/-- Python `int(s)` on an already-stripped string: an optional sign
followed by at least one decimal digit (the underscore- and whitespace-
tolerant extensions of CPython are outside the model).  `none` models
`ValueError`. -/
def pyInt (s : String) : Option ℤ :=
  let core : List Char → Option ℤ := fun cs =>
    if cs ≠ [] ∧ cs.all Char.isDigit then some (digitsNat cs : ℤ) else none
  match s.toList with
  | '+' :: cs => core cs
  | '-' :: cs => (core cs).map Neg.neg
  | cs => core cs

/-- Python `float(s)` on a plain decimal literal: optional surrounding
whitespace, optional sign, digits with at most one point, at least one
digit (`"1."` and `".5"` are accepted, exponents and `inf`/`nan` are
outside the model).  `none` models `ValueError`. -/
def pyFloat (s : String) : Option ℚ :=
  let core : List Char → Option ℚ := fun cs =>
    let ip := cs.takeWhile Char.isDigit
    match cs.dropWhile Char.isDigit with
    | [] => if ip = [] then none else some (digitsNat ip : ℚ)
    | '.' :: fr =>
      if fr.all Char.isDigit ∧ ¬(ip = [] ∧ fr = []) then
        some ((digitsNat ip : ℚ) + (digitsNat fr : ℚ) / (10 : ℚ) ^ fr.length)
      else none
    | _ => none
  match (pyStrip s).toList with
  | '+' :: cs => core cs
  | '-' :: cs => (core cs).map Neg.neg
  | cs => core cs

/-- Embeds `float(raw.get("score") or 0.0)` — shared by `PineconeGateway.query`
and `Retriever._to_item`.  Absent/`None`, `0` and `""` are falsy and give
`0.0`; a truthy string goes through `float(...)`, which raises
`ValueError` when it is not numeric. -/
def coerceScore (v : Option ScoreVal) : Except PyError ℚ :=
  match v with
  | none => .ok 0
  | some (.num x) => .ok x
  | some (.str s) =>
    if s = "" then .ok 0
    else
      match pyFloat s with
      | some x => .ok x
      | none => .error .valueError

/-- Embeds `Retriever._to_item`: builds a `RetrievedItem` from one raw match. -/
def toItem (source : String) (raw : RawDict) : Except PyError RetrievedItem :=
  let meta := raw.metadata.getD {}
  let text :=
    if source = "faq" then safeStr (pyOr meta.answer meta.text)
    else safeStr meta.text
  match coerceScore raw.score with
  | .ok sc => .ok { source := source, score := sc, text := text, meta := meta }
  | .error e => .error e

/-- Embeds `[f(x) for x in xs]` where `f` can raise: the first exception
propagates. -/
def mapME (f : α → Except PyError β) : List α → Except PyError (List β)
  | [] => .ok []
  | a :: as_ =>
    match f a, mapME f as_ with
    | .ok b, .ok bs => .ok (b :: bs)
    | .error e, _ => .error e
    | .ok _, .error e => .error e

/-- Embeds `_to_int` of `app/retrieval/retriever.py` on an optional string:
`int(str(x).strip())` with a default on `None` or parse failure. -/
def pyToInt (x : Option String) (default : ℤ) : ℤ :=
  match x with
  | none => default
  | some s => (pyInt (pyStrip s)).getD default

/-- Embeds `Retriever._article_key`: the composite deduplication key
`f"{aid}::{idx}::{bid}::{role}"` over stripped metadata fields. -/
def articleKey (it : RetrievedItem) : String :=
  pyStrip (safeStr it.meta.article_id) ++ "::" ++
    pyStrip (safeStr it.meta.chunk_index) ++ "::" ++
    pyStrip (safeStr it.meta.block_id) ++ "::" ++
    pyStrip (safeStr it.meta.chunk_role)

/-- Three-way lexicographic comparison of two character lists (Python
string comparison is lexicographic by code point). -/
def cmpChars : List Char → List Char → Ordering
  | [], [] => .eq
  | [], _ :: _ => .lt
  | _ :: _, [] => .gt
  | a :: as_, b :: bs =>
    if a.toNat < b.toNat then .lt
    else if b.toNat < a.toNat then .gt
    else cmpChars as_ bs

/-- Three-way comparison of the Python tuple `(str, int)`. -/
def cmpKey (x y : List Char × ℤ) : Ordering :=
  match cmpChars x.1 y.1 with
  | .lt => .lt
  | .gt => .gt
  | .eq => if x.2 < y.2 then .lt else if y.2 < x.2 then .gt else .eq

/-- Sort key of `Retriever._sort_article_chunks`: the Python tuple
`(safe_str(article_id), _to_int(chunk_index, default=10**9))`. -/
def sortKeyA (it : RetrievedItem) : List Char × ℤ :=
  ((safeStr it.meta.article_id).toList, pyToInt it.meta.chunk_index (10 ^ 9))

/-- The comparison used by `sorted(items, key=sort_key)`: key of `a` not
greater than key of `b`, comparing tuples lexicographically. -/
def itemLe (a b : RetrievedItem) : Prop := cmpKey (sortKeyA a) (sortKeyA b) ≠ .gt

instance : DecidableRel itemLe := fun a b =>
  inferInstanceAs (Decidable (cmpKey (sortKeyA a) (sortKeyA b) ≠ .gt))

theorem char_eq_of_toNat_eq {a b : Char} (h : a.toNat = b.toNat) : a = b := by
  cases a; cases b
  simp only [Char.toNat] at h
  congr 1
  exact UInt32.toNat.inj h

theorem cmpChars_eq_eq : ∀ x y : List Char, cmpChars x y = .eq → x = y := by
  intro x
  induction x with
  | nil => intro y h; cases y with
    | nil => rfl
    | cons b bs => simp [cmpChars] at h
  | cons a as_ ih =>
    intro y h
    cases y with
    | nil => simp [cmpChars] at h
    | cons b bs =>
      unfold cmpChars at h
      by_cases h1 : a.toNat < b.toNat
      · simp [h1] at h
      · by_cases h2 : b.toNat < a.toNat
        · simp [h1, h2] at h
        · have hab : a = b := char_eq_of_toNat_eq (by omega)
          simp only [if_neg h1, if_neg h2] at h
          rw [hab, ih bs h]

theorem cmpChars_self : ∀ x : List Char, cmpChars x x = .eq := by
  intro x
  induction x with
  | nil => rfl
  | cons a as_ ih =>
    unfold cmpChars
    rw [if_neg (by omega), if_neg (by omega), ih]

theorem cmpChars_swap : ∀ x y : List Char, cmpChars y x = (cmpChars x y).swap := by
  intro x
  induction x with
  | nil => intro y; cases y <;> rfl
  | cons a as_ ih =>
    intro y
    cases y with
    | nil => rfl
    | cons b bs =>
      unfold cmpChars
      rcases Nat.lt_trichotomy a.toNat b.toNat with h | h | h
      · have hba : ¬b.toNat < a.toNat := by omega
        rw [if_neg hba, if_pos h, if_pos h]; rfl
      · have hab : ¬a.toNat < b.toNat := by omega
        have hba : ¬b.toNat < a.toNat := by omega
        rw [if_neg hba, if_neg hab, if_neg hab, if_neg hba, ih bs]
      · have hab : ¬a.toNat < b.toNat := by omega
        rw [if_pos h, if_neg hab, if_pos h]; rfl

theorem cmpChars_lt_trans :
    ∀ x y z : List Char, cmpChars x y = .lt → cmpChars y z = .lt →
      cmpChars x z = .lt := by
  intro x
  induction x with
  | nil =>
    intro y z hxy hyz
    cases y with
    | nil => simp [cmpChars] at hxy
    | cons b bs =>
      cases z with
      | nil => simp [cmpChars] at hyz
      | cons c cs => simp [cmpChars]
  | cons a as_ ih =>
    intro y z hxy hyz
    cases y with
    | nil => simp [cmpChars] at hxy
    | cons b bs =>
      cases z with
      | nil => simp [cmpChars] at hyz
      | cons c cs =>
        unfold cmpChars at hxy hyz ⊢
        by_cases hab : a.toNat < b.toNat
        · by_cases hbc : b.toNat < c.toNat
          · rw [if_pos (by omega : a.toNat < c.toNat)]
          · by_cases hcb : c.toNat < b.toNat
            · simp [hbc, hcb] at hyz
            · rw [if_pos (by omega : a.toNat < c.toNat)]
        · by_cases hba : b.toNat < a.toNat
          · simp [hab, hba] at hxy
          · by_cases hbc : b.toNat < c.toNat
            · rw [if_pos (by omega : a.toNat < c.toNat)]
            · by_cases hcb : c.toNat < b.toNat
              · simp [hbc, hcb] at hyz
              · rw [if_neg (by omega : ¬a.toNat < c.toNat),
                  if_neg (by omega : ¬c.toNat < a.toNat)]
                rw [if_neg hab, if_neg hba] at hxy
                rw [if_neg hbc, if_neg hcb] at hyz
                exact ih bs cs hxy hyz

theorem intCmp_ne_gt {i j : ℤ} (h : ¬j < i) :
    (if i < j then Ordering.lt else if j < i then Ordering.gt else Ordering.eq) ≠ .gt := by
  by_cases p : i < j
  · rw [if_pos p]; exact fun hh => Ordering.noConfusion hh
  · rw [if_neg p, if_neg h]; exact fun hh => Ordering.noConfusion hh

theorem intCmp_le {i j : ℤ}
    (h : (if i < j then Ordering.lt else if j < i then Ordering.gt
      else Ordering.eq) ≠ .gt) : ¬j < i := by
  intro hlt
  rw [if_neg (by omega), if_pos hlt] at h
  exact h rfl

theorem cmpKey_swap (x y : List Char × ℤ) : cmpKey y x = (cmpKey x y).swap := by
  unfold cmpKey
  rw [cmpChars_swap x.1 y.1]
  cases h : cmpChars x.1 y.1 with
  | lt => rfl
  | gt => rfl
  | eq =>
    show (if y.2 < x.2 then Ordering.lt else if x.2 < y.2 then Ordering.gt
      else Ordering.eq) = _
    rcases Int.lt_trichotomy x.2 y.2 with h2 | h2 | h2
    · have hyx : ¬y.2 < x.2 := by omega
      rw [if_neg hyx, if_pos h2, if_pos h2]; rfl
    · have hxy : ¬x.2 < y.2 := by omega
      have hyx : ¬y.2 < x.2 := by omega
      rw [if_neg hyx, if_neg hxy, if_neg hxy, if_neg hyx]; rfl
    · have hxy : ¬x.2 < y.2 := by omega
      rw [if_pos h2, if_neg hxy, if_pos h2]; rfl

theorem cmpKey_le_trans {x y z : List Char × ℤ}
    (hxy : cmpKey x y ≠ .gt) (hyz : cmpKey y z ≠ .gt) : cmpKey x z ≠ .gt := by
  unfold cmpKey at hxy hyz ⊢
  cases h1 : cmpChars x.1 y.1 with
  | gt => rw [h1] at hxy; exact absurd rfl hxy
  | lt =>
    cases h2 : cmpChars y.1 z.1 with
    | gt => rw [h2] at hyz; exact absurd rfl hyz
    | lt =>
      rw [cmpChars_lt_trans _ _ _ h1 h2]
      exact fun hh => Ordering.noConfusion hh
    | eq =>
      rw [← cmpChars_eq_eq _ _ h2, h1]
      exact fun hh => Ordering.noConfusion hh
  | eq =>
    rw [h1] at hxy
    have hx1 : x.1 = y.1 := cmpChars_eq_eq _ _ h1
    cases h2 : cmpChars y.1 z.1 with
    | gt => rw [h2] at hyz; exact absurd rfl hyz
    | lt =>
      rw [hx1, h2]
      exact fun hh => Ordering.noConfusion hh
    | eq =>
      rw [h2] at hyz
      have hy1 : y.1 = z.1 := cmpChars_eq_eq _ _ h2
      rw [hx1, hy1, cmpChars_self]
      have a1 : ¬y.2 < x.2 := intCmp_le hxy
      have a2 : ¬z.2 < y.2 := intCmp_le hyz
      exact intCmp_ne_gt (by omega)

instance : IsTotal RetrievedItem itemLe := by
  constructor
  intro a b
  unfold itemLe
  cases h : cmpKey (sortKeyA a) (sortKeyA b) with
  | lt => left; exact fun hh => Ordering.noConfusion hh
  | eq => left; exact fun hh => Ordering.noConfusion hh
  | gt =>
    right
    rw [cmpKey_swap, h]
    exact fun hh => Ordering.noConfusion hh

instance : IsTrans RetrievedItem itemLe :=
  ⟨fun _ _ _ h h' => cmpKey_le_trans h h'⟩

/-- Embeds `Retriever._sort_article_chunks` (Python `sorted` is a stable sort;
insertion sort is stable and agrees with it for this total preorder). -/
def sortArticleChunks (items : List RetrievedItem) : List RetrievedItem :=
  List.insertionSort itemLe items

/-- One `by_key[k] = v` update of the Python dict used for deduplication:
an existing key keeps its position and gets the new value, a new key is
appended (CPython dicts preserve insertion order). -/
def upsert : List (String × RetrievedItem) → String → RetrievedItem →
    List (String × RetrievedItem)
  | [], k, v => [(k, v)]
  | p :: ps, k, v => if p.1 = k then (k, v) :: ps else p :: upsert ps k v

/-- Embeds `hard_cap = max(getattr(self.cfg, "top_k_articles_final", 8) * 10, 80)`. -/
def hardCap (cfg : RAGConfig) : ℕ := max (cfg.top_k_articles_final * 10) 80

/-- The dedup/merge/sort/truncate tail of
`Retriever._expand_articles_same_block`: insert every fetched item into
the key dict, force the anchor back in, list the values, sort by
`(article_id, chunk_index)` and truncate to `hard_cap`. -/
def mergeBlock (cfg : RAGConfig) (anchor : RetrievedItem)
    (items : List RetrievedItem) : List RetrievedItem :=
  let byKey := upsert (items.foldl (fun m it => upsert m (articleKey it) it) [])
    (articleKey anchor) anchor
  (sortArticleChunks (byKey.map Prod.snd)).take (hardCap cfg)

/-- The type of the index-query collaborator
(`PineconeGateway.query`): namespace, embedding, `top_k`, optional
`block_id` equality filter, giving the raw matches. -/
abbrev QueryFn := String → List ℚ → ℕ → Option String → List RawDict

/-- Embeds `Retriever._expand_articles_same_block`.  The expansion pool size is
always `60`: the code reads `getattr(cfg, "top_k_articles_within_article", 60)`
and `RAGConfig` has no such field, so the
default applies, and `max(60, 60) = 60`. -/
def expandArticlesSameBlock (cfg : RAGConfig) (qf : QueryFn) (emb : List ℚ)
    (initial : List RetrievedItem) : Except PyError (List RetrievedItem) :=
  match initial with
  | [] => .ok []
  | anchor :: _ =>
    let anchorBlockId := pyStrip (safeStr anchor.meta.block_id)
    if anchorBlockId = "" then .ok (initial.take cfg.top_k_articles_final)
    else
      let raw := qf cfg.namespace_articles emb 60 (some anchorBlockId)
      match mapME (toItem "article") raw with
      | .ok items => .ok (mergeBlock cfg anchor items)
      | .error e => .error e

/-- The comparison behind `sorted(xs, key=lambda x: x.score, reverse=True)`
(stable descending sort by score). -/
def scoreGe (a b : RetrievedItem) : Prop := b.score ≤ a.score

instance : DecidableRel scoreGe := fun a b =>
  inferInstanceAs (Decidable (b.score ≤ a.score))

/-- The two external collaborators `Retriever.retrieve` consults: the
embedding service and the index-query service. -/
structure Oracles where
  embed : String → List ℚ
  query : QueryFn

/-- Body of `Retriever.retrieve` after the embedding has been obtained. -/
def retrieveRun (cfg : RAGConfig) (qf : QueryFn) (emb : List ℚ)
    (expandArticles : Bool) :
    Except PyError (List RetrievedItem × List RetrievedItem) :=
  if emb.isEmpty then .ok ([], [])
  else
    match mapME (toItem "faq") (qf cfg.namespace_faqs emb cfg.top_k_faq_candidates none) with
    | .error e => .error e
    | .ok faqs =>
      let faqsSorted := List.insertionSort scoreGe faqs
      match mapME (toItem "article")
          (qf cfg.namespace_articles emb cfg.top_k_articles_candidates none) with
      | .error e => .error e
      | .ok arts =>
        let artsSorted := List.insertionSort scoreGe arts
        if expandArticles then
          match expandArticlesSameBlock cfg qf emb artsSorted with
          | .ok artsX => .ok (faqsSorted, artsX)
          | .error e => .error e
        else .ok (faqsSorted, artsSorted)

/-- Embeds `Retriever.retrieve(question, expand_articles)`. -/
def retrieveE (cfg : RAGConfig) (o : Oracles) (question : String)
    (expandArticles : Bool) :
    Except PyError (List RetrievedItem × List RetrievedItem) :=
  retrieveRun cfg o.query (o.embed question) expandArticles

/-- Result of `datetime.fromisoformat`: an instant (seconds relative to
the epoch, sub-second precision immaterial here) plus whether the value
carries a UTC offset.  For a naive value `instantSec` is wall-clock
seconds. -/
structure PyDateTime where
  instantSec : ℤ
  aware : Bool
deriving DecidableEq, Repr

/-- Days from the epoch 1970-01-01 of a proleptic Gregorian date
(the arithmetic behind CPython `date.toordinal`). -/
def daysFromCivil (y m d : ℤ) : ℤ :=
  let y' := y - (if m ≤ 2 then 1 else 0)
  let era := Int.fdiv y' 400
  let yoe := y' - era * 400
  let mp := if 2 < m then m - 3 else m + 9
  let doy := Int.fdiv (153 * mp + 2) 5 + d - 1
  let doe := yoe * 365 + Int.fdiv yoe 4 - Int.fdiv yoe 100 + doy
  era * 146097 + doe - 719468

/-- Two-digit number. -/
def num2 (a b : Char) : Option ℤ :=
  if a.isDigit ∧ b.isDigit then some (10 * (digitVal a : ℤ) + digitVal b) else none

/-- Four-digit number. -/
def num4 (a b c d : Char) : Option ℤ :=
  if a.isDigit ∧ b.isDigit ∧ c.isDigit ∧ d.isDigit then
    some (1000 * (digitVal a : ℤ) + 100 * digitVal b + 10 * digitVal c + digitVal d)
  else none

/-- Optional UTC offset at the end of an ISO string: empty (naive) or
`±HH:MM` (the seconds/fraction forms of an offset are outside the
model).  Returns the offset in seconds, `some none` meaning naive. -/
def parseOffset : List Char → Option (Option ℤ)
  | [] => some none
  | '+' :: a :: b :: ':' :: c :: d :: [] => do
    let h ← num2 a b; let mi ← num2 c d
    if h ≤ 23 ∧ mi ≤ 59 then some (some (h * 3600 + mi * 60)) else none
  | '-' :: a :: b :: ':' :: c :: d :: [] => do
    let h ← num2 a b; let mi ← num2 c d
    if h ≤ 23 ∧ mi ≤ 59 then some (some (-(h * 3600 + mi * 60))) else none
  | _ => none

/-- Seconds `:SS` with an optional (ignored) fraction `.d+`, followed by
the offset. -/
def parseSecondsOffset : List Char → Option (ℤ × Option ℤ)
  | ':' :: e :: f :: rest => do
    let s ← num2 e f
    if 59 < s then none
    else
      match rest with
      | '.' :: fr =>
        let ds := fr.takeWhile Char.isDigit
        if ds = [] then none
        else do
          let off ← parseOffset (fr.dropWhile Char.isDigit)
          some (s, off)
      | _ => do
        let off ← parseOffset rest
        some (s, off)
  | rest => do
    let off ← parseOffset rest
    some (0, off)

/-- Parses `HH:MM[:SS[.ffffff]][±HH:MM]`. -/
def parseTimeOffset : List Char → Option (ℤ × Option ℤ)
  | a :: b :: ':' :: c :: d :: rest => do
    let h ← num2 a b
    let mi ← num2 c d
    if h ≤ 23 ∧ mi ≤ 59 then do
      let (s, off) ← parseSecondsOffset rest
      some (h * 3600 + mi * 60 + s, off)
    else none
  | _ => none

/-- Embeds `datetime.fromisoformat` on the common ISO-8601 subset
of `YYYY-MM-DD`, optionally followed by a separator (T or space) and
`HH:MM[:SS[.ffffff]][±HH:MM]` (a date alone is
midnight, naive).  Anything else is `none` (CPython raises
`ValueError`, which `parse_iso` catches). -/
def fromIsoFormat (s : String) : Option PyDateTime :=
  match s.toList with
  | y1 :: y2 :: y3 :: y4 :: '-' :: m1 :: m2 :: '-' :: d1 :: d2 :: rest => do
    let y ← num4 y1 y2 y3 y4
    let mo ← num2 m1 m2
    let dy ← num2 d1 d2
    if 1 ≤ mo ∧ mo ≤ 12 ∧ 1 ≤ dy ∧ dy ≤ 31 then
      let base := daysFromCivil y mo dy * 86400
      match rest with
      | [] => some ⟨base, false⟩
      | sep :: time =>
        if sep = 'T' ∨ sep = ' ' then do
          let (secs, off) ← parseTimeOffset time
          match off with
          | none => some ⟨base + secs, false⟩
          | some o => some ⟨base + secs - o, true⟩
        else none
    else none
  | _ => none

/-- Embeds `dt.replace("Z", "+00:00")` (every occurrence of the one-char
pattern is replaced). -/
def replaceZ : List Char → List Char
  | [] => []
  | c :: cs =>
    if c = 'Z' then '+' :: '0' :: '0' :: ':' :: '0' :: '0' :: replaceZ cs
    else c :: replaceZ cs

/-- Embeds `parse_iso` of `app/utils/__init__.py`: falsy input gives `None`,
then `"Z"` is replaced by `"+00:00"` and `fromisoformat` is tried. -/
def parseIso (s : String) : Option PyDateTime :=
  if s = "" then none
  else fromIsoFormat (String.mk (replaceZ s.toList))

/-- Embeds `is_stale` of `app/utils/__init__.py`.  `now_utc()` is the aware
current instant, passed in as `nowSec`.  `(now_utc() - dt).days` floors
the difference; when `dt` is naive the subtraction raises `TypeError`
(aware minus naive), which nothing catches. -/
def isStaleE (nowSec : ℤ) (s : String) (staleDays : ℤ) : Except PyError Bool :=
  match parseIso s with
  | none => .ok false
  | some dt =>
    if dt.aware then .ok (staleDays ≤ Int.fdiv (nowSec - dt.instantSec) 86400)
    else .error .typeError

/-- The caution message of `PolicyDecider._caution_if_stale`. -/
def cautionMsg (lang : String) : String :=
  if lang = "ca" then
    "Això pot haver canviat; si tens dubtes, confirma-ho amb la versió actual."
  else if lang = "en" then
    "This may have changed; if in doubt, please confirm with the latest version."
  else
    "Esto puede haber cambiado; si tienes dudas, confírmalo con la versión actual."

/-- Embeds `PolicyDecider._caution_if_stale`. -/
def cautionE (nowSec : ℤ) (cfg : RAGConfig) (it : RetrievedItem) (lang : String) :
    Except PyError (Option String) :=
  let upd := safeStr it.meta.updatedAt
  if upd = "" then .ok none
  else
    match isStaleE nowSec upd cfg.stale_days_warn with
    | .ok true => .ok (some (cautionMsg lang))
    | .ok false => .ok none
    | .error e => .error e

/-- ASCII lower-casing, the fragment of `str.lower()` the policy needs. -/
def lowerAscii (s : String) : String := String.mk (s.toList.map Char.toLower)

/-- Whether `needle` occurs in `hay`, starting at the front. -/
def charsLead : List Char → List Char → Bool
  | [], _ => true
  | _ :: _, [] => false
  | a :: as_, b :: bs => a == b && charsLead as_ bs

/-- Whether `needle` occurs anywhere in the character list. -/
def charsFind (needle : List Char) : List Char → Bool
  | [] => charsLead needle []
  | c :: cs => charsLead needle (c :: cs) || charsFind needle cs

/-- Python `needle in hay` on strings. -/
def strContains (hay needle : String) : Bool :=
  charsFind needle.toList hay.toList

/-- Score of the top candidate of a pool, `0.0` when the pool is empty
(`float(top.score) if top else 0.0`). -/
def topScore (l : List RetrievedItem) : ℚ := ((l.head?).map (·.score)).getD 0

/-- Embeds `PolicyDecider.decide`.  The margin is the literal `0.05`: the code
reads `getattr(self.cfg, "faq_over_article_margin", 0.05)` and
`RAGConfig` has no such field.  Rules appear in source order; `rule5`
and `rule6` are the fallbacks behind `rule4`, etc. -/
def decideE (cfg : RAGConfig) (nowSec : ℤ) (question lang : String)
    (faqs arts : List RetrievedItem) : Except PyError Decision :=
  let top_faq := faqs.head?
  let top_art := arts.head?
  let faq_score := topScore faqs
  let art_score := topScore arts
  let has_pantalla := strContains (lowerAscii question) "pantalla"
  let rule56 : Except PyError Decision :=
    match top_faq with
    | some f =>
      match cautionE nowSec cfg f lang with
      | .ok c => .ok { action := "answer", reason := "faq_only", source_kind := "faq", caution_note := c }
      | .error e => .error e
    | none =>
      match top_art with
      | some a =>
        match cautionE nowSec cfg a lang with
        | .ok c => .ok { action := "answer", reason := "article_only", source_kind := "article", caution_note := c }
        | .error e => .error e
      | none =>
        .ok { action := "clarify", reason := "low_signal_no_candidates", source_kind := "none", caution_note := none }
  let rule4 : Except PyError Decision :=
    match top_faq, top_art with
    | some f, some a =>
      if art_score - 0.05 ≤ faq_score then
        match cautionE nowSec cfg f lang with
        | .ok c => .ok { action := "answer", reason := "faq_preferred_within_margin", source_kind := "faq", caution_note := c }
        | .error e => .error e
      else
        match cautionE nowSec cfg a lang with
        | .ok c => .ok { action := "answer", reason := "article_wins_over_margin", source_kind := "article", caution_note := c }
        | .error e => .error e
    | _, _ => rule56
  let rule3 : Except PyError Decision :=
    match top_faq with
    | some f =>
      if (0.7 : ℚ) ≤ faq_score ∧ has_pantalla = false then
        match cautionE nowSec cfg f lang with
        | .ok c => .ok { action := "answer", reason := "faq_override_0_70_no_pantalla", source_kind := "faq", caution_note := c }
        | .error e => .error e
      else rule4
    | none => rule4
  let rule2 : Except PyError Decision :=
    match top_art with
    | some a =>
      if (0.78 : ℚ) ≤ art_score then
        match cautionE nowSec cfg a lang with
        | .ok c => .ok { action := "answer", reason := "articles_override_0_78", source_kind := "article", caution_note := c }
        | .error e => .error e
      else rule3
    | none => rule3
  if faq_score ≤ 0.2 ∧ art_score ≤ 0.2 then
    .ok { action := "clarify", reason := "both_below_min_score", source_kind := "none", caution_note := none }
  else rule2

/-- Python string slice `s[:n]` (by code points). -/
def pyTake (s : String) (n : ℕ) : String := String.mk (s.toList.take n)

/-- One rendered FAQ record of `ContextBuilder.build_faqs`:
the f-string `- [FAQ{i}] {("Q: " + q + " " if q else "")}A: {a}`,
stripped. -/
def faqLine (i : ℕ) (it : RetrievedItem) : String :=
  let q := safeStr (pyOr it.meta.question it.meta.q)
  let a := it.text
  pyStrip ("- [FAQ" ++ toString i ++ "] " ++
    (if q ≠ "" then "Q: " ++ q ++ " " else "") ++ "A: " ++ a)

/-- The rendered FAQ item lines of `ContextBuilder.build_faqs`: only the
first `top_k_faqs` candidates are rendered, enumerated from 1. -/
def faqLines (cfg : RAGConfig) (faqs : List RetrievedItem) : List String :=
  (faqs.take cfg.top_k_faqs).enum.map (fun p => faqLine (p.1 + 1) p.2)

/-- Embeds `ContextBuilder.build_faqs`: header plus item lines, blank
lines dropped, joined, then truncated to `max_context_chars` and
stripped. -/
def buildFaqs (cfg : RAGConfig) (faqs : List RetrievedItem) : String :=
  let parts := if faqs.isEmpty then [] else "FAQs:" :: faqLines cfg faqs
  let out := pyStrip (String.intercalate "\n" (parts.filter (fun p => pyStrip p ≠ "")))
  pyStrip (pyTake out cfg.max_context_chars)

/-- Structure `RewriteResult` of `app/query_rewriter.py`. -/
structure RewriteResult where
  effective_query : String
  use_context : Bool
  mode : String
  confidence : ℚ
  clarify : Bool
  clarify_question_es : String
  keywords_ca : List String
deriving DecidableEq, Repr

/-- The JSON object fields `QueryRewriter.rewrite` reads from the LLM
response, already typed (`none` models an absent key). -/
structure RewriterJson where
  mode : Option String := none
  use_context : Option Bool := none
  confidence : Option ℚ := none
  keywords_ca : Option (List String) := none
  clarify : Option Bool := none
  clarify_question_es : Option String := none
deriving DecidableEq, Repr

/-- Embeds the post-LLM tail of `QueryRewriter.rewrite` (lines 183-232):
`parsed = none` models `json.loads` raising on malformed content, in
which case the hard-coded safe defaults survive; otherwise each field is
read with its fallback.  `effective_query` is always the comma-join of
the accepted keywords — the raw last user message is never used. -/
def parseRewrite (parsed : Option RewriterJson) : RewriteResult :=
  match parsed with
  | none =>
    { effective_query := "", use_context := false, mode := "ambiguous",
      confidence := 0, clarify := true,
      clarify_question_es := "¿Puedes concretar a qué te refieres?",
      keywords_ca := [] }
  | some data =>
    let mode0 := pyStrip (safeStr (pyOr data.mode (some "ambiguous")))
    let mode := if mode0 = "new_topic" ∨ mode0 = "follow_up" ∨ mode0 = "ambiguous"
      then mode0 else "ambiguous"
    let use_context := data.use_context.getD false
    let confidence0 := data.confidence.getD 0
    let confidence := if confidence0 < 0 then 0 else if 1 < confidence0 then 1 else confidence0
    let keywords := (data.keywords_ca.getD []).filter (fun k => pyStrip k ≠ "")
    let clarify := data.clarify.getD false
    let clarify_q := pyStrip (safeStr data.clarify_question_es)
    { effective_query := pyStrip (String.intercalate ", " keywords),
      use_context := use_context, mode := mode, confidence := confidence,
      clarify := clarify, clarify_question_es := clarify_q,
      keywords_ca := keywords }

/-- Effective-question derivation of `ChatbotService.handle_messages`
(lines 326-350).  On the first turn (`state["last_bot"]` empty) the raw
last user message is used directly.  On every later turn the code calls
`self.query_rewriter.rewrite(last_user=..., topic_question=...,
last_bot=..., lang=..., screen_hint=..., root_question=...)`, but
`QueryRewriter.rewrite` (query_rewriter.py, lines 147-153) accepts only
`(last_user, last_bot, font, lang)`: CPython argument binding raises
`TypeError` (unexpected keyword argument) at the call site, before the
rewriter collaborator is even consulted, and no code path falls back to
the raw message. -/
def chatbotEffectiveQuestionE (isFirstTurn : Bool) (lastUser : String) :
    Except PyError String :=
  if isFirstTurn then .ok lastUser else .error .typeError

/-! ## Lemmas about the block-expansion merge -/

theorem mapME_ok_length {f : α → Except PyError β} :
    ∀ {l : List α} {ys : List β}, mapME f l = .ok ys → ys.length = l.length := by
  intro l
  induction l with
  | nil => intro ys h; cases h; rfl
  | cons a as_ ih =>
    intro ys h
    unfold mapME at h
    cases hf : f a with
    | error e => rw [hf] at h; cases h
    | ok b =>
      rw [hf] at h
      cases hm : mapME f as_ with
      | error e => rw [hm] at h; cases h
      | ok bs =>
        rw [hm] at h
        cases h
        simp [ih hm]

theorem upsert_length (m : List (String × RetrievedItem)) (k : String)
    (v : RetrievedItem) : (upsert m k v).length ≤ m.length + 1 := by
  induction m with
  | nil => simp [upsert]
  | cons p ps ih =>
    unfold upsert
    by_cases h : p.1 = k
    · simp [h]
    · simp only [if_neg h, List.length_cons]
      omega

theorem foldl_upsert_length (items : List RetrievedItem) :
    ∀ m : List (String × RetrievedItem),
      (items.foldl (fun m it => upsert m (articleKey it) it) m).length ≤
        m.length + items.length := by
  induction items with
  | nil => intro m; simp
  | cons it its ih =>
    intro m
    simp only [List.foldl_cons, List.length_cons]
    calc (its.foldl (fun m it => upsert m (articleKey it) it)
            (upsert m (articleKey it) it)).length
        ≤ (upsert m (articleKey it) it).length + its.length := ih _
      _ ≤ m.length + 1 + its.length := by
          have := upsert_length m (articleKey it) it; omega
      _ = m.length + (its.length + 1) := by omega

theorem mem_upsert_self (m : List (String × RetrievedItem)) (k : String)
    (v : RetrievedItem) : (k, v) ∈ upsert m k v := by
  induction m with
  | nil => simp [upsert]
  | cons p ps ih =>
    unfold upsert
    by_cases h : p.1 = k
    · simp [h]
    · simp [if_neg h, ih]

theorem mergeBlock_anchor_mem (cfg : RAGConfig) (anchor : RetrievedItem)
    (items : List RetrievedItem) (hlen : items.length + 1 ≤ hardCap cfg) :
    anchor ∈ mergeBlock cfg anchor items := by
  unfold mergeBlock
  set byKey := upsert (items.foldl (fun m it => upsert m (articleKey it) it) [])
    (articleKey anchor) anchor with hByKey
  have hmem : anchor ∈ byKey.map Prod.snd := by
    exact List.mem_map_of_mem Prod.snd (mem_upsert_self _ _ _)
  have hlen2 : (byKey.map Prod.snd).length ≤ hardCap cfg := by
    have h1 : byKey.length ≤
        (items.foldl (fun m it => upsert m (articleKey it) it) []).length + 1 :=
      upsert_length _ _ _
    have h2 := foldl_upsert_length items []
    simp only [List.length_nil, Nat.zero_add] at h2
    simp only [List.length_map]
    omega
  have hsortlen : (sortArticleChunks (byKey.map Prod.snd)).length ≤ hardCap cfg := by
    unfold sortArticleChunks
    rw [List.length_insertionSort]
    exact hlen2
  rw [List.take_of_length_le hsortlen]
  unfold sortArticleChunks
  rw [List.mem_insertionSort]
  exact hmem

/-- C1.  For every expansion call with a non-empty anchor `block_id`,
whatever the index-query collaborator returns (at most its `top_k = 60`
matches, per the collaborator contract of §6), the expanded article list
contains a candidate whose composite deduplication key equals the
anchor's — the anchor is re-inserted after deduplication, and the final
truncation cap `max(10 * top_k_articles_final, 80) ≥ 80` cannot evict it
from a merged set of at most 61 items. -/
theorem anchor_always_present_after_expansion (cfg : RAGConfig) (qf : QueryFn)
    (emb : List ℚ) (anchor : RetrievedItem) (rest out : List RetrievedItem)
    (hbid : pyStrip (safeStr anchor.meta.block_id) ≠ "")
    (hlen : (qf cfg.namespace_articles emb 60
      (some (pyStrip (safeStr anchor.meta.block_id)))).length ≤ 60)
    (hout : expandArticlesSameBlock cfg qf emb (anchor :: rest) = .ok out) :
    ∃ it ∈ out, articleKey it = articleKey anchor := by
  simp only [expandArticlesSameBlock] at hout
  rw [if_neg hbid] at hout
  cases hmap : mapME (toItem "article")
      (qf cfg.namespace_articles emb 60 (some (pyStrip (safeStr anchor.meta.block_id)))) with
  | error e => rw [hmap] at hout; cases hout
  | ok items =>
    rw [hmap] at hout
    cases hout
    refine ⟨anchor, ?_, rfl⟩
    apply mergeBlock_anchor_mem
    have h1 : items.length ≤ 60 := by
      rw [mapME_ok_length hmap]; exact hlen
    have h2 : (80 : ℕ) ≤ hardCap cfg := Nat.le_max_right _ _
    omega

/-- Witness for C1 at a concrete input: the expansion query returns a
fresh item with the very same composite key as the anchor, and the
anchor still survives. -/
def cexAnchor : RetrievedItem :=
  { source := "article", score := 0.9, text := "",
    meta := { article_id := some "a", block_id := some "b1", chunk_index := some "0" } }

/-- Raw expansion match number `i` of the concrete block used in the C1
and C4 witnesses and the C4 counterexample. -/
def cexRaw (i : ℕ) : RawDict :=
  { score := some (.num 0.5),
    metadata := some { article_id := some "a", block_id := some "b1",
                       chunk_index := some (toString i) } }

theorem anchor_always_present_after_expansion_witness :
    ∃ it ∈ [cexAnchor], articleKey it = articleKey cexAnchor :=
  anchor_always_present_after_expansion cfgDefault (fun _ _ _ _ => [cexRaw 0])
    [1] cexAnchor [] [cexAnchor] (by decide) (by decide) rfl

/-- C4 (amended).  After block expansion the returned article list is
sorted ascending by the key `(article_id, chunk_index)` — a missing or
unparsable `chunk_index` becomes the sentinel `10^9` and therefore sorts
last within its article — and its length never exceeds
`hard_cap = max(10 * top_k_articles_final, 80)` (default `80`).  The
block-context cap of the spec (default 15) is not applied here. -/
theorem expansion_sorted_and_capped (cfg : RAGConfig) (qf : QueryFn)
    (emb : List ℚ) (anchor : RetrievedItem) (rest out : List RetrievedItem)
    (hbid : pyStrip (safeStr anchor.meta.block_id) ≠ "")
    (hout : expandArticlesSameBlock cfg qf emb (anchor :: rest) = .ok out) :
    out.Pairwise itemLe ∧ out.length ≤ hardCap cfg := by
  simp only [expandArticlesSameBlock] at hout
  rw [if_neg hbid] at hout
  cases hmap : mapME (toItem "article")
      (qf cfg.namespace_articles emb 60 (some (pyStrip (safeStr anchor.meta.block_id)))) with
  | error e => rw [hmap] at hout; cases hout
  | ok items =>
    rw [hmap] at hout
    cases hout
    constructor
    · apply List.Pairwise.sublist (List.take_sublist _ _)
      exact List.sorted_insertionSort itemLe _
    · unfold mergeBlock
      simp only [List.length_take]
      exact Nat.min_le_left _ _

theorem expansion_sorted_and_capped_witness :
    List.Pairwise itemLe [cexAnchor] ∧
      ([cexAnchor] : List RetrievedItem).length ≤ hardCap cfgDefault :=
  expansion_sorted_and_capped cfgDefault (fun _ _ _ _ => [cexRaw 0]) [1]
    cexAnchor [] [cexAnchor] (by decide) rfl

/-- Counterexample for C4 as stated: with the default configuration an
expansion query returning 41 distinct chunks of the anchor's block makes
`_expand_articles_same_block` return 41 candidates — more than the
spec's block-context cap default of 15, and more than the configured
`top_k_articles_block_context` default of 40.  (Code truncates to
`hard_cap = 80` here; the block-context cap is only applied later, by
`ContextBuilder.build_articles`.) -/
theorem expansion_cap_counterexample :
    (expandArticlesSameBlock cfgDefault (fun _ _ _ _ => (List.range 41).map cexRaw)
        [1] [cexAnchor]).map List.length = Except.ok 41 ∧
      ¬(41 ≤ cfgDefault.top_k_articles_block_context) ∧ ¬((41 : ℕ) ≤ 15) := by
  refine ⟨?_, by decide, by decide⟩
  rfl

/-! ## Determinism of retrieval -/

theorem retrieveRun_ext (cfg : RAGConfig) (qf₁ qf₂ : QueryFn) (emb : List ℚ)
    (e : Bool) (h : ∀ ns k flt, qf₁ ns emb k flt = qf₂ ns emb k flt) :
    retrieveRun cfg qf₁ emb e = retrieveRun cfg qf₂ emb e := by
  unfold retrieveRun expandArticlesSameBlock
  simp only [h]

/-- C8.  Retrieval is a deterministic function of the collaborator
responses: two runs whose embedding collaborator answers the query
identically and whose index collaborator answers every (namespace,
embedding, top-k, filter) request identically produce identical FAQ and
article candidate lists (embedding, querying, block expansion,
deduplication, sorting and truncation contain no other source of
variation). -/
theorem retrieve_deterministic (cfg : RAGConfig) (o₁ o₂ : Oracles)
    (question : String) (e : Bool)
    (hemb : o₁.embed question = o₂.embed question)
    (hq : ∀ ns k flt, o₁.query ns (o₁.embed question) k flt =
      o₂.query ns (o₂.embed question) k flt) :
    retrieveE cfg o₁ question e = retrieveE cfg o₂ question e := by
  unfold retrieveE
  have hq' : ∀ ns k flt, o₁.query ns (o₁.embed question) k flt =
      o₂.query ns (o₁.embed question) k flt := by
    intro ns k flt
    have hh := hq ns k flt
    rw [← hemb] at hh
    exact hh
  rw [← hemb]
  exact retrieveRun_ext cfg o₁.query o₂.query (o₁.embed question) e hq'

/-- First oracle of the C8 witness: constant collaborators. -/
def oracleW1 : Oracles where
  embed := fun _ => [1]
  query := fun _ _ _ _ => [cexRaw 0, cexRaw 1]

/-- Second oracle of the C8 witness: syntactically different functions
that give the same answers on the calls made for question `"q"`. -/
def oracleW2 : Oracles where
  embed := fun s => if s.length = 1 then [1] else [2]
  query := fun _ emb _ _ => if emb.length = 1 then [cexRaw 0, cexRaw 1] else []

theorem retrieve_deterministic_witness :
    retrieveE cfgDefault oracleW1 "q" true = retrieveE cfgDefault oracleW2 "q" true :=
  retrieve_deterministic cfgDefault oracleW1 oracleW2 "q" true rfl
    (fun _ _ _ => rfl)

/-! ## The policy decider -/

theorem topScore_cons (x : RetrievedItem) (l : List RetrievedItem) :
    topScore (x :: l) = x.score := rfl

theorem topScore_nil : topScore [] = 0 := rfl

/-- C2.  When neither the clarify rule nor an override fires (not both
top scores at most 0.20, top article score below 0.78, top FAQ score
below 0.70) and both pools produced a top candidate whose staleness
check returns, the decision is answer-from-FAQ exactly when
`faq_score >= article_score - margin` with the margin `0.05`
(the default, which the code always uses), and answer-from-article
otherwise. -/
theorem margin_rule_decides_faq_vs_article (cfg : RAGConfig) (nowSec : ℤ)
    (question lang : String) (f a : RetrievedItem)
    (fs as_ : List RetrievedItem) (cf ca : Option String)
    (hnotlow : ¬(f.score ≤ (0.2 : ℚ) ∧ a.score ≤ (0.2 : ℚ)))
    (hart : a.score < (0.78 : ℚ))
    (hfaq : f.score < (0.7 : ℚ))
    (hcf : cautionE nowSec cfg f lang = .ok cf)
    (hca : cautionE nowSec cfg a lang = .ok ca) :
    (a.score - (0.05 : ℚ) ≤ f.score →
      decideE cfg nowSec question lang (f :: fs) (a :: as_) =
        .ok { action := "answer", reason := "faq_preferred_within_margin",
              source_kind := "faq", caution_note := cf }) ∧
    (f.score < a.score - (0.05 : ℚ) →
      decideE cfg nowSec question lang (f :: fs) (a :: as_) =
        .ok { action := "answer", reason := "article_wins_over_margin",
              source_kind := "article", caution_note := ca }) := by
  have hart' : ¬((0.78 : ℚ) ≤ a.score) := not_le.mpr hart
  have hfaq' : ¬((0.7 : ℚ) ≤ f.score ∧
      strContains (lowerAscii question) "pantalla" = false) :=
    fun h => absurd h.1 (not_le.mpr hfaq)
  constructor
  · intro hle
    simp only [decideE, List.head?_cons, topScore_cons]
    rw [if_neg hnotlow, if_neg hart', if_neg hfaq', if_pos hle, hcf]
  · intro hgt
    have hle' : ¬(a.score - (0.05 : ℚ) ≤ f.score) := not_le.mpr hgt
    simp only [decideE, List.head?_cons, topScore_cons]
    rw [if_neg hnotlow, if_neg hart', if_neg hfaq', if_neg hle', hca]

/-- FAQ candidate with a given score and no further metadata, used by
the policy witnesses. -/
def faqW (sc : ℚ) : RetrievedItem :=
  { source := "faq", score := sc, text := "t", meta := {} }

/-- Article candidate with a given score and no further metadata, used
by the policy witnesses. -/
def artW (sc : ℚ) : RetrievedItem :=
  { source := "article", score := sc, text := "t", meta := {} }

theorem margin_rule_decides_faq_vs_article_witness :
    decideE cfgDefault 0 "x" "es" [faqW 0.6] [artW 0.62] =
      .ok { action := "answer", reason := "faq_preferred_within_margin",
            source_kind := "faq", caution_note := none } :=
  (margin_rule_decides_faq_vs_article cfgDefault 0 "x" "es" (faqW 0.6)
    (artW 0.62) [] [] none none (by norm_num [faqW, artW])
    (by norm_num [artW]) (by norm_num [faqW]) rfl rfl).1
    (by norm_num [faqW, artW])

/-- C3 (amended).  When the clarify rule and the article override do not
fire (not both top scores at most 0.20, top article score below 0.78),
a top FAQ candidate with score at least 0.70 whose staleness check
returns makes the decision answer-from-FAQ — provided the lowercased
question does not contain the substring `"pantalla"`; the code skips
this override for questions mentioning `pantalla`. -/
theorem faq_override_answers_faq (cfg : RAGConfig) (nowSec : ℤ)
    (question lang : String) (f : RetrievedItem) (fs arts : List RetrievedItem)
    (c : Option String)
    (hpant : strContains (lowerAscii question) "pantalla" = false)
    (hnotlow : ¬(f.score ≤ (0.2 : ℚ) ∧ topScore arts ≤ (0.2 : ℚ)))
    (hart : topScore arts < (0.78 : ℚ))
    (hfaq : (0.7 : ℚ) ≤ f.score)
    (hc : cautionE nowSec cfg f lang = .ok c) :
    decideE cfg nowSec question lang (f :: fs) arts =
      .ok { action := "answer", reason := "faq_override_0_70_no_pantalla",
            source_kind := "faq", caution_note := c } := by
  cases arts with
  | nil =>
    simp only [decideE, List.head?_cons, List.head?_nil, topScore_cons]
    rw [if_neg (by simpa [topScore_nil] using hnotlow),
      if_pos ⟨hfaq, hpant⟩, hc]
  | cons a as_ =>
    have hart' : ¬((0.78 : ℚ) ≤ a.score) := by
      rw [topScore_cons] at hart; exact not_le.mpr hart
    simp only [decideE, List.head?_cons, topScore_cons]
    rw [if_neg (by simpa [topScore_cons] using hnotlow), if_neg hart',
      if_pos ⟨hfaq, hpant⟩, hc]

theorem faq_override_answers_faq_witness :
    decideE cfgDefault 0 "hola" "es" [faqW 0.75] [] =
      .ok { action := "answer", reason := "faq_override_0_70_no_pantalla",
            source_kind := "faq", caution_note := none } :=
  faq_override_answers_faq cfgDefault 0 "hola" "es" (faqW 0.75) [] [] none
    (by rfl) (by norm_num [faqW, topScore_nil]) (by norm_num [topScore_nil])
    (by norm_num [faqW]) rfl

/-- Counterexample for C3 as stated: the question `"pantalla"` disables
the FAQ override, and with top FAQ score 0.70 and top article score
0.77 the margin rule then selects the article, not the FAQ. -/
theorem faq_override_pantalla_counterexample :
    decideE cfgDefault 0 "pantalla" "es" [faqW 0.7] [artW 0.77] =
      .ok { action := "answer", reason := "article_wins_over_margin",
            source_kind := "article", caution_note := none } := by
  have hpant : strContains (lowerAscii "pantalla") "pantalla" = true := rfl
  simp only [decideE, List.head?_cons, topScore_cons]
  rw [if_neg (by norm_num [faqW, artW]),
    if_neg (show ¬((0.78 : ℚ) ≤ (artW 0.77).score) by norm_num [artW]),
    if_neg (show ¬((0.7 : ℚ) ≤ (faqW 0.7).score ∧
      strContains (lowerAscii "pantalla") "pantalla" = false) from
      fun h => by simp [hpant] at h),
    if_neg (show ¬((artW 0.77).score - (0.05 : ℚ) ≤ (faqW 0.7).score) by
      norm_num [faqW, artW])]
  rfl

/-- Concrete "current instant" for the staleness evaluations:
2026-10-12 00:00:00 UTC. -/
def now0 : ℤ := 86400 * daysFromCivil 2026 10 12

/-- FAQ candidate whose `updatedAt` is a parseable but timezone-naive
ISO timestamp. -/
def staleNaiveFaq : RetrievedItem :=
  { source := "faq", score := 0.5, text := "t",
    meta := { updatedAt := some "2024-01-01T00:00:00" } }

/-- Article candidate whose `updatedAt` is a parseable, timezone-naive
ISO timestamp more than 540 days in the past. -/
def staleNaiveArt : RetrievedItem :=
  { source := "article", score := 0.8, text := "t",
    meta := { updatedAt := some "2020-01-01T00:00:00" } }

/-- C5 (code bug).  `decide` is not total: on a FAQ-only pool whose top
candidate carries the parseable timezone-naive timestamp
`"2024-01-01T00:00:00"`, `_caution_if_stale` reaches
`now_utc() - datetime.fromisoformat(...)` with an aware minus a naive
datetime, which raises `TypeError` instead of returning a Decision. -/
theorem decide_raises_on_naive_timestamp :
    decideE cfgDefault now0 "" "es" [staleNaiveFaq] [] =
      .error .typeError := by
  simp only [decideE, List.head?_cons, List.head?_nil, topScore_cons, topScore_nil]
  rw [if_neg (show ¬(staleNaiveFaq.score ≤ (0.2 : ℚ) ∧ (0 : ℚ) ≤ (0.2 : ℚ)) from
      fun h => absurd h.1 (by norm_num [staleNaiveFaq])),
    if_neg (show ¬((0.7 : ℚ) ≤ staleNaiveFaq.score ∧
      strContains (lowerAscii "") "pantalla" = false) from
      fun h => absurd h.1 (by norm_num [staleNaiveFaq])),
    show cautionE now0 cfgDefault staleNaiveFaq "es" = .error .typeError from rfl]

/-- C7 (code bug).  A selected article whose `updatedAt` parses to the
timezone-naive timestamp `"2020-01-01T00:00:00"` — about 2476 days
before the evaluation instant, far beyond the 540-day window — makes
the decider raise `TypeError` inside `is_stale` instead of returning a
Decision with a non-null caution note. -/
theorem caution_raises_on_naive_timestamp :
    decideE cfgDefault now0 "q" "es" [] [staleNaiveArt] =
      .error .typeError := by
  simp only [decideE, List.head?_cons, List.head?_nil, topScore_cons, topScore_nil]
  rw [if_neg (show ¬((0 : ℚ) ≤ (0.2 : ℚ) ∧ staleNaiveArt.score ≤ (0.2 : ℚ)) from
      fun h => absurd h.2 (by norm_num [staleNaiveArt])),
    if_pos (show (0.78 : ℚ) ≤ staleNaiveArt.score by norm_num [staleNaiveArt]),
    show cautionE now0 cfgDefault staleNaiveArt "es" = .error .typeError from rfl]

/-! ## Score coercion, rewriter fallback, FAQ rendering cap -/

/-- C6 (amended).  Candidate construction coerces an absent, `None`,
zero or empty-string score to `0.0`; but a non-empty, non-numeric
string score makes `float(...)` raise `ValueError` — construction does
fail on that kind of bad upstream score data. -/
theorem score_coercion_behavior (src : String) (m : Option Meta) :
    (toItem src { score := none, metadata := m }).map (·.score) = .ok 0 ∧
    (toItem src { score := some (.str ""), metadata := m }).map (·.score) = .ok 0 ∧
    (toItem src { score := some (.num 0), metadata := m }).map (·.score) = .ok 0 ∧
    ∀ s : String, s ≠ "" → pyFloat s = none →
      toItem src { score := some (.str s), metadata := m } = .error .valueError := by
  refine ⟨rfl, rfl, rfl, ?_⟩
  intro s hs hf
  simp only [toItem, coerceScore]
  rw [if_neg hs, hf]

theorem score_coercion_behavior_witness :
    toItem "article" { score := some (.str "zzz"), metadata := none } =
      .error .valueError :=
  (score_coercion_behavior "article" none).2.2.2 "zzz" (by decide) rfl

/-- Counterexample for C6 as stated: a raw match whose score is the
garbled string `"abc"` does not coerce to `0.0` — `_to_item` (like
`PineconeGateway.query`, which runs the same expression) raises
`ValueError`. -/
theorem score_coercion_counterexample :
    toItem "article" { score := some (.str "abc"), metadata := none } =
      .error .valueError := rfl

/-- C9 (code bug).  The fallback the spec demands does not exist: on a
follow-up turn with raw last user message `"hola"`, the
effective-question derivation raises `TypeError` at the `rewrite` call
(keyword-argument mismatch between `chatbot.py` and
`query_rewriter.py`) instead of producing any query — in particular
not the raw last message.  Only the first turn uses the raw message.
And even the rewriter's own malformed-output path (`json.loads`
raising) keeps safe defaults whose `effective_query` is the comma-join
of zero keywords, `""` — at no layer is the raw last message restored. -/
theorem effective_question_raises_on_follow_up_turn :
    chatbotEffectiveQuestionE false "hola" = .error .typeError ∧
    chatbotEffectiveQuestionE true "hola" = .ok "hola" ∧
    (parseRewrite none).effective_query = "" ∧
    parseRewrite none =
      { effective_query := "", use_context := false, mode := "ambiguous",
        confidence := 0, clarify := true,
        clarify_question_es := "¿Puedes concretar a qué te refieres?",
        keywords_ca := [] } :=
  ⟨rfl, rfl, rfl, rfl⟩

/-- C10.  `build_faqs` renders at most `top_k_faqs` (default 5) FAQ item
lines, and the rendered lines are unchanged if the input is cut to its
first `top_k_faqs` candidates — candidates beyond that count are
omitted before the character-budget truncation (`buildFaqs` assembles
its output from `faqLines`). -/
theorem build_faqs_renders_at_most_top_k (cfg : RAGConfig)
    (faqs : List RetrievedItem) :
    (faqLines cfg faqs).length ≤ cfg.top_k_faqs ∧
    faqLines cfg faqs = faqLines cfg (faqs.take cfg.top_k_faqs) := by
  constructor
  · simp only [faqLines, List.length_map, List.enum_length, List.length_take]
    exact Nat.min_le_left _ _
  · simp only [faqLines, List.take_take, Nat.min_self]
